import Mathlib

/-!
# Shallow embedding of acme-lib `src/acc.rs`

The visible source of this repository is `src/acc.rs`: the `Account` type
(contact email, signing key, registered account resource, directory handle),
its persistence-backed `certificate` lookup, and `new_order`, which submits a
signed order-creation request through the bounded nonce-retry executor.

External collaborators whose source is not part of the visible code
(`Persist::get`, `retry_call`, `expect_header`, `read_json`, `make_jws_kid`,
the directory's `new_nonce`) are modelled from the specification; each such
definition carries a doc comment starting with `Modelled from the spec:`.
Effects are made explicit: persistence is a function from keys to results,
the provider is a function from submitted envelopes to classified outcomes,
and every operation that performs lookups or consumes anti-replay tokens
additionally returns the trace of keys read / token indices consumed.
-/

namespace AcmeLib

/-- Raw byte sequences (`Vec<u8>` in the source). -/
abbrev Bytes := List Nat

/-- `PersistKind` (interface of `persist.rs`): the two kinds used by
`Account::certificate`. -/
inductive PersistKind where
  | PrivateKey
  | Certificate
deriving DecidableEq

/-- `PersistKey::new(realm, kind, name)` (interface of `persist.rs`):
triplet (namespace, kind, name). -/
structure PersistKey where
  realm : String
  kind : PersistKind
  name : String
deriving DecidableEq

def PersistKey.new (realm : String) (kind : PersistKind) (name : String) :
    PersistKey :=
  { realm := realm, kind := kind, name := name }

/-- Modelled from the spec: the persistence backend's failure on a read is a
backend I/O error, distinct from absence of the entry (spec §4.3, §7). -/
inductive PersistError where
  | backend (msg : String)
deriving DecidableEq

/-- `Certificate` (read path, `cert.rs`): private-key text plus certificate
text, an immutable value object. -/
structure Certificate where
  private_key : String
  certificate : String
deriving DecidableEq

/-- `Certificate::new(private_key, certificate)`. -/
def Certificate.new (private_key certificate : String) : Certificate :=
  { private_key := private_key, certificate := certificate }

/-- `ApiDirectory` endpoint set: only the order-creation endpoint is used by
the visible code (`acc.rs` line 132). -/
structure ApiDirectory where
  newOrder : String
deriving DecidableEq

/-- Modelled from the spec: the `Directory` collaborator (spec §4.4) supplies
the persistence backend's read path and the provider endpoint URLs.  The
read path is an abstract function from keys to results; fresh anti-replay
tokens are modelled by consecutive issue indices (each `new_nonce` call
yields the next index). -/
structure Directory where
  persistFn : PersistKey → Except PersistError (Option Bytes)
  apiDirectoryVal : ApiDirectory

/-- `Directory::persist()` accessor. -/
def Directory.persist (d : Directory) :
    PersistKey → Except PersistError (Option Bytes) :=
  d.persistFn

/-- `Directory::api_directory()` accessor. -/
def Directory.api_directory (d : Directory) : ApiDirectory :=
  d.apiDirectoryVal

/-- `AcmeKey` (`util.rs` interface): elliptic-curve account key, exportable
as PEM bytes, carrying the registered account resource URL used as the JWS
key identifier. -/
structure AcmeKey where
  pem : Bytes
  key_id : String
deriving DecidableEq

/-- `AcmeKey::to_pem()`. -/
def AcmeKey.to_pem (k : AcmeKey) : Bytes := k.pem

/-- `ApiAccount`: provider JSON mirror of the registered account resource;
its fields are irrelevant to the visible code, which only stores and
returns it. -/
structure ApiAccount where
  raw : String
deriving DecidableEq

/-- `AccountInner` (`acc.rs` lines 13–18). -/
structure AccountInner where
  directory : Directory
  contact_email : String
  acme_key : AcmeKey
  api_account : ApiAccount

/-- `Account` (`acc.rs` lines 35–37): reference-counted immutable inner
state; the `Arc` indirection is identity-free in the embedding. -/
structure Account where
  inner : AccountInner

/-- `Account::new` (`acc.rs` lines 40–54). -/
def Account.new (directory : Directory) (contact_email : String)
    (acme_key : AcmeKey) (api_account : ApiAccount) : Account :=
  { inner :=
    { directory := directory
      acme_key := acme_key
      contact_email := contact_email
      api_account := api_account } }

/-- `Account::contact_email` (`acc.rs` lines 64–66). -/
def Account.contact_email (acc : Account) : String :=
  acc.inner.contact_email

/-- `Account::api_account` (`acc.rs` lines 147–149). -/
def Account.api_account (acc : Account) : ApiAccount :=
  acc.inner.api_account

/-- Result of a Rust expression that may panic: `.expect(msg)` on a `None`
becomes `panicked msg`, not an error value in the function's result
channel. -/
inductive PanicOr (α : Type) where
  | panicked (msg : String)
  | ok (a : α)
deriving DecidableEq

/-- `Account::acme_private_key_pem` (`acc.rs` lines 59–61):
`String::from_utf8(self.inner.acme_key.to_pem()).expect("from_utf8")`.
The UTF-8 decoder is the abstract parameter `utf8`; its failure branch is
a panic, not an error result. -/
def Account.acme_private_key_pem (acc : Account)
    (utf8 : Bytes → Option String) : PanicOr String :=
  match utf8 acc.inner.acme_key.to_pem with
  | some s => PanicOr.ok s
  | none => PanicOr.panicked "from_utf8"

/-- `Account::certificate` (`acc.rs` lines 79–102).  The two
`persist.get(..)?` reads are sequenced exactly as in the source: the `?`
operator returns the backend error at the point of failure, so a failing
first read prevents the second.  The second component records the keys
looked up, in order.  `String::from_utf8(s).ok()` is the abstract decoder
`utf8`. -/
def Account.certificate (acc : Account) (utf8 : Bytes → Option String)
    (primary_name : String) :
    Except PersistError (Option Certificate) × List PersistKey :=
  let realm := acc.inner.contact_email
  let persist := acc.inner.directory.persist
  let pk_key := PersistKey.new realm PersistKind.PrivateKey primary_name
  match persist pk_key with
  | Except.error e => (Except.error e, [pk_key])
  | Except.ok v1 =>
    let private_key := v1.bind (fun s => utf8 s)
    let pk_crt := PersistKey.new realm PersistKind.Certificate primary_name
    match persist pk_crt with
    | Except.error e => (Except.error e, [pk_key, pk_crt])
    | Except.ok v2 =>
      let certificate := v2.bind (fun s => utf8 s)
      (Except.ok (match private_key, certificate with
        | some k, some c => some (Certificate.new k c)
        | _, _ => none), [pk_key, pk_crt])

/-- `ApiIdentifier` (`api.rs`): `{ type, value }` with the type tag stored in
field `_type`. -/
structure ApiIdentifier where
  _type : String
  value : String
deriving DecidableEq

/-- `ApiOrder` (`api.rs`): the identifier list plus further provider fields
that `..Default::default()` leaves defaulted; they are summarised by
`status`, which the visible code never sets. -/
structure ApiOrder where
  identifiers : List ApiIdentifier
  status : Option String
deriving DecidableEq

/-- `ApiOrder::default()`. -/
def ApiOrder.default : ApiOrder :=
  { identifiers := [], status := none }

/-- The order-creation payload built in `Account::new_order` (`acc.rs` lines
117–128): `[primary_name].iter().chain(alt_names)` mapped to identifiers
tagged `"dns"`, remaining fields defaulted. -/
def orderPayload (primary_name : String) (alt_names : List String) :
    ApiOrder :=
  { ApiOrder.default with
    identifiers :=
      ([primary_name] ++ alt_names).map
        (fun s => { _type := "dns", value := s }) }

/-- Modelled from the spec: the error taxonomy of the executor path (spec
§7) — protocol violation (missing header, malformed body), a stale-token
(bad nonce) provider rejection, and every other failure (transport,
signing, other provider rejection). -/
inductive AcmeError where
  | protocolViolation (msg : String)
  | badNonce (msg : String)
  | callFailed (msg : String)
deriving DecidableEq

/-- Provider HTTP response: headers and raw body text. -/
structure Response where
  headers : List (String × String)
  body : String
deriving DecidableEq

/-- Modelled from the spec: `expect_header` (`util.rs`, outside the visible
source) — look up a required response header; absence is a protocol
violation, a hard error (spec §4.2, §7). -/
def expect_header (res : Response) (h : String) : Except AcmeError String :=
  match res.headers.lookup h with
  | some v => Except.ok v
  | none => Except.error (AcmeError.protocolViolation ("missing header " ++ h))

/-- Modelled from the spec: `read_json` (`util.rs`) — decode the response
body into the order representation; a malformed body is a protocol
violation (spec §7).  The concrete JSON decoder is the parameter
`parse`. -/
def read_json (parse : String → Option ApiOrder) (res : Response) :
    Except AcmeError ApiOrder :=
  match parse res.body with
  | some o => Except.ok o
  | none => Except.error (AcmeError.protocolViolation "malformed json body")

/-- Modelled from the spec: the signed envelope built by `make_jws_kid`
(`jwt.rs`): protected header carrying the key identifier (the account's
registered resource URL), the anti-replay token and the target URL; the
payload is the encoded order body, kept structured here (spec §4.1 step 3,
§6).  Tokens are identified by the issue index of the `new_nonce` call that
produced them: the directory issues a fresh token on every request. -/
structure Jws where
  kid : String
  nonce : Nat
  url : String
  payload : ApiOrder
deriving DecidableEq

/-- Modelled from the spec: `make_jws_kid(url, nonce, key, payload)`
(`jwt.rs`). -/
def make_jws_kid (url : String) (nonce : Nat) (key : AcmeKey)
    (payload : ApiOrder) : Jws :=
  { kid := key.key_id, nonce := nonce, url := url, payload := payload }

/-- Outcome of one signed attempt, as classified by the executor (spec §4.1
steps 5–6): a success response, a stale-token (bad nonce) rejection, or any
other non-success outcome — transport error, signing failure, other
provider rejection — all of which are surfaced immediately. -/
inductive AttemptOutcome where
  | success (res : Response)
  | staleToken (e : AcmeError)
  | failure (e : AcmeError)
deriving DecidableEq

/-- Modelled from the spec: the bounded retry driver `retry_call`
(`util.rs`), generalised over the remaining retry budget `fuel` and the
index `i` of the fresh token the current attempt consumes.  `attempt i` is
the classified outcome of the attempt that consumed token `i`.  Returns
the result together with the indices of all tokens consumed, in order
(spec §4.1 steps 1, 5–6). -/
def retryCallFrom (attempt : Nat → AttemptOutcome) :
    Nat → Nat → Except AcmeError Response × List Nat
  | 0, i =>
    match attempt i with
    | AttemptOutcome.success r => (Except.ok r, [i])
    | AttemptOutcome.failure e => (Except.error e, [i])
    | AttemptOutcome.staleToken e => (Except.error e, [i])
  | fuel + 1, i =>
    match attempt i with
    | AttemptOutcome.success r => (Except.ok r, [i])
    | AttemptOutcome.failure e => (Except.error e, [i])
    | AttemptOutcome.staleToken _ =>
      let rest := retryCallFrom attempt fuel (i + 1)
      (rest.1, i :: rest.2)

/-- Modelled from the spec: the small fixed retry count.  The spec leaves
the exact bound open and suggests e.g. 3 attempts in total (spec §9), i.e.
2 retries after the first attempt. -/
def nonceRetries : Nat := 2

/-- Modelled from the spec: `retry_call` (`util.rs`) — run the signed
request with the fixed retry budget, starting from the first fresh
token. -/
def retry_call (attempt : Nat → AttemptOutcome) :
    Except AcmeError Response × List Nat :=
  retryCallFrom attempt nonceRetries 0

/-- `Order::new(&inner, api_order, url)` (`order.rs` interface): the created
order resource, bound back to the account's inner state. -/
structure OrderResource where
  account : AccountInner
  api_order : ApiOrder
  url : String

/-- `Order::new`. -/
def OrderResource.new (inner : AccountInner) (api_order : ApiOrder)
    (url : String) : OrderResource :=
  { account := inner, api_order := api_order, url := url }

/-- `NewOrder` (`order.rs` interface): wrapper around the freshly created
order resource, as returned by `Account::new_order`. -/
structure NewOrder where
  order : OrderResource

/-- The signed envelope `Account::new_order` submits on the attempt that
consumes token `nonce` (`acc.rs` lines 131–133): the order-creation
endpoint URL, the fresh token, the account key and the identifier
payload. -/
def Account.newOrderEnvelope (acc : Account) (primary_name : String)
    (alt_names : List String) (nonce : Nat) : Jws :=
  make_jws_kid acc.inner.directory.api_directory.newOrder nonce
    acc.inner.acme_key (orderPayload primary_name alt_names)

/-- `Account::new_order` (`acc.rs` lines 116–144): build the identifier
payload, run the signed POST through `retry_call`, require the `location`
header, decode the JSON body, and wrap the resulting order resource.  The
provider is the abstract function from submitted envelopes to classified
outcomes; the second component is the list of token indices consumed. -/
def Account.new_order (acc : Account) (provider : Jws → AttemptOutcome)
    (parse : String → Option ApiOrder) (primary_name : String)
    (alt_names : List String) : Except AcmeError NewOrder × List Nat :=
  let rc := retry_call
    (fun nonce => provider (acc.newOrderEnvelope primary_name alt_names nonce))
  match rc.1 with
  | Except.error e => (Except.error e, rc.2)
  | Except.ok res =>
    match expect_header res "location" with
    | Except.error e => (Except.error e, rc.2)
    | Except.ok url =>
      match read_json parse res with
      | Except.error e => (Except.error e, rc.2)
      | Except.ok api_order =>
        (Except.ok { order := OrderResource.new acc.inner api_order url },
          rc.2)

/-! ### Concrete instances used to evaluate the theorems on closed inputs -/

/-- A concrete directory: the persistence store holds the byte `107` under
every `PrivateKey` key and the byte `99` under every `Certificate` key. -/
def sampleDirectory : Directory :=
  { persistFn := fun key =>
      match key.kind with
      | PersistKind.PrivateKey => Except.ok (some [107])
      | PersistKind.Certificate => Except.ok (some [99])
    apiDirectoryVal := { newOrder := "https://acme.example/new-order" } }

/-- A concrete directory whose persistence backend fails on every read. -/
def failDirectory : Directory :=
  { persistFn := fun _ => Except.error (PersistError.backend "store down")
    apiDirectoryVal := { newOrder := "https://acme.example/new-order" } }

/-- A concrete account key. -/
def sampleKey : AcmeKey :=
  { pem := [107], key_id := "https://acme.example/acct/1" }

/-- A concrete registered account resource. -/
def sampleApiAccount : ApiAccount := { raw := "" }

/-- A concrete account over `sampleDirectory`. -/
def sampleAccount : Account :=
  Account.new sampleDirectory "foo@bar.com" sampleKey sampleApiAccount

/-- A concrete account over the failing directory. -/
def failAccount : Account :=
  Account.new failDirectory "foo@bar.com" sampleKey sampleApiAccount

/-- A concrete text decoder: decodes `[107]` to `"K"` and `[99]` to `"C"`. -/
def sampleUtf8 : Bytes → Option String := fun b =>
  if b = [107] then some "K" else if b = [99] then some "C" else none

/-! ### Helper lemmas on the retry executor -/

/-- The token trace of the executor is the run of consecutive issue indices
starting at the first token requested: attempt number `k` of a run
consumes exactly token `i + k`. -/
theorem retryCallFrom_trace_range' (attempt : Nat → AttemptOutcome) :
    ∀ fuel i, (retryCallFrom attempt fuel i).2
      = List.range' i (retryCallFrom attempt fuel i).2.length := by
  intro fuel
  induction fuel with
  | zero =>
    intro i
    cases h : attempt i <;> simp [retryCallFrom, h]
  | succ fuel ih =>
    intro i
    cases h : attempt i with
    | success r => simp [retryCallFrom, h]
    | failure e => simp [retryCallFrom, h]
    | staleToken e =>
      simp only [retryCallFrom, h, List.length_cons, List.range'_succ]
      exact congrArg (fun l => i :: l) (ih (i + 1))

/-- The executor always makes at least one attempt, consuming at least one
token. -/
theorem retryCallFrom_trace_pos (attempt : Nat → AttemptOutcome) :
    ∀ fuel i, 1 ≤ (retryCallFrom attempt fuel i).2.length := by
  intro fuel i
  cases fuel <;> cases h : attempt i <;> simp [retryCallFrom, h]

/-- A non-stale failure on the current attempt is surfaced immediately, with
no further attempt. -/
theorem retryCallFrom_failure (attempt : Nat → AttemptOutcome)
    (e : AcmeError) :
    ∀ fuel i, attempt i = AttemptOutcome.failure e →
      retryCallFrom attempt fuel i = (Except.error e, [i]) := by
  intro fuel i h
  cases fuel <;> simp [retryCallFrom, h]

/-- If every attempt within the budget is a stale-token rejection, the
executor surfaces the failure of the last attempt, having consumed one
token per attempt. -/
theorem retryCallFrom_all_stale (attempt : Nat → AttemptOutcome)
    (f : Nat → AcmeError) :
    ∀ fuel i,
      (∀ j, i ≤ j → j ≤ i + fuel → attempt j = AttemptOutcome.staleToken (f j)) →
      retryCallFrom attempt fuel i
        = (Except.error (f (i + fuel)), List.range' i (fuel + 1)) := by
  intro fuel
  induction fuel with
  | zero =>
    intro i h
    have hi := h i (Nat.le_refl i) (Nat.le_refl i)
    simp [retryCallFrom, hi]
  | succ fuel ih =>
    intro i h
    have hi := h i (Nat.le_refl i) (Nat.le_add_right i (fuel + 1))
    have hrest := ih (i + 1) (fun j h1 h2 =>
      h j (Nat.le_of_succ_le h1) (by omega))
    simp only [retryCallFrom, hi, hrest, List.range'_succ]
    rw [show i + 1 + fuel = i + (fuel + 1) by omega]

/-- If the first `j` attempts are stale-token rejections and attempt `j`
(within the budget) succeeds, the executor returns that response, having
consumed `j + 1` consecutive fresh tokens. -/
theorem retryCallFrom_stale_then_success (attempt : Nat → AttemptOutcome)
    (r : Response) :
    ∀ fuel i j, j ≤ fuel →
      (∀ k, i ≤ k → k < i + j → ∃ e, attempt k = AttemptOutcome.staleToken e) →
      attempt (i + j) = AttemptOutcome.success r →
      retryCallFrom attempt fuel i = (Except.ok r, List.range' i (j + 1)) := by
  intro fuel
  induction fuel with
  | zero =>
    intro i j hj _ hs
    have hj0 : j = 0 := Nat.le_zero.mp hj
    subst hj0
    simp only [Nat.add_zero] at hs
    simp [retryCallFrom, hs]
  | succ fuel ih =>
    intro i j hj hpre hs
    cases j with
    | zero =>
      simp only [Nat.add_zero] at hs
      simp [retryCallFrom, hs]
    | succ j =>
      obtain ⟨e, he⟩ := hpre i (Nat.le_refl i) (by omega)
      have hrest := ih (i + 1) j (Nat.le_of_succ_le_succ hj)
        (fun k h1 h2 => hpre k (Nat.le_of_succ_le h1) (by omega))
        (by rw [show i + 1 + j = i + (j + 1) by omega]; exact hs)
      simp only [retryCallFrom, he, hrest, List.range'_succ]

/-- `new_order` returns the executor's token trace unchanged on every path:
the post-executor steps (header check, body decode) never trigger another
attempt. -/
theorem new_order_trace_eq (acc : Account) (provider : Jws → AttemptOutcome)
    (parse : String → Option ApiOrder) (primary_name : String)
    (alt_names : List String) :
    (Account.new_order acc provider parse primary_name alt_names).2
      = (retry_call (fun nonce =>
          provider (acc.newOrderEnvelope primary_name alt_names nonce))).2 := by
  unfold Account.new_order
  cases h1 : (retry_call (fun nonce =>
      provider (acc.newOrderEnvelope primary_name alt_names nonce))).1 with
  | error e => simp [h1]
  | ok res =>
    cases h2 : expect_header res "location" with
    | error e => simp [h1, h2]
    | ok url =>
      cases h3 : read_json parse res with
      | error e => simp [h1, h2, h3]
      | ok o => simp [h1, h2, h3]

/-- Both persistence keys built by `certificate` carry the account's contact
email as their namespace. -/
theorem certificate_trace_realm (acc : Account)
    (utf8 : Bytes → Option String) (p : String) :
    ∀ k0 ∈ (Account.certificate acc utf8 p).2,
      k0.realm = acc.inner.contact_email := by
  intro k0 hk0
  unfold Account.certificate at hk0
  cases h1 : acc.inner.directory.persist
      (PersistKey.new acc.inner.contact_email PersistKind.PrivateKey p) with
  | error e =>
    simp only [h1] at hk0
    simp only [List.mem_singleton] at hk0
    subst hk0; rfl
  | ok v1 =>
    cases h2 : acc.inner.directory.persist
        (PersistKey.new acc.inner.contact_email PersistKind.Certificate p) with
    | error e =>
      simp only [h1, h2, List.mem_cons, List.mem_singleton,
        List.not_mem_nil, or_false] at hk0
      rcases hk0 with rfl | rfl <;> rfl
    | ok v2 =>
      simp only [h1, h2, List.mem_cons, List.mem_singleton,
        List.not_mem_nil, or_false] at hk0
      rcases hk0 with rfl | rfl <;> rfl

/-- An optional byte entry decodes to a text value exactly when it is
present and the decoder accepts it. -/
theorem bind_utf8_isSome_iff (v : Option Bytes)
    (utf8 : Bytes → Option String) :
    (v.bind (fun s => utf8 s)).isSome
      ↔ ∃ b s, v = some b ∧ utf8 b = some s := by
  cases v with
  | none => simp
  | some b => simp [Option.isSome_iff_exists]

/-! ### Claim theorems -/

/-- C3: for every primary name and every presence combination of the two
persistence entries, `Account::certificate` returns a certificate value if
and only if both entries are present and both byte sequences decode as
text; a returned certificate is built from exactly the two decoded halves;
and in every other non-error case the result is `none`. -/
theorem certificate_both_halves (acc : Account)
    (utf8 : Bytes → Option String) (p : String) (v1 v2 : Option Bytes)
    (h1 : acc.inner.directory.persist
      (PersistKey.new acc.inner.contact_email PersistKind.PrivateKey p)
        = Except.ok v1)
    (h2 : acc.inner.directory.persist
      (PersistKey.new acc.inner.contact_email PersistKind.Certificate p)
        = Except.ok v2) :
    ((∃ c, (Account.certificate acc utf8 p).1 = Except.ok (some c))
      ↔ ((∃ b s, v1 = some b ∧ utf8 b = some s)
          ∧ (∃ b s, v2 = some b ∧ utf8 b = some s))) ∧
    (∀ c, (Account.certificate acc utf8 p).1 = Except.ok (some c) →
      v1.bind (fun s => utf8 s) = some c.private_key
        ∧ v2.bind (fun s => utf8 s) = some c.certificate) ∧
    ((¬ ((∃ b s, v1 = some b ∧ utf8 b = some s)
        ∧ (∃ b s, v2 = some b ∧ utf8 b = some s))) →
      (Account.certificate acc utf8 p).1 = Except.ok none) := by
  have hres : (Account.certificate acc utf8 p).1
      = Except.ok
          (match v1.bind (fun s => utf8 s), v2.bind (fun s => utf8 s) with
            | some k, some c => some (Certificate.new k c)
            | _, _ => none) := by
    simp only [Account.certificate, h1, h2]
  simp only [← bind_utf8_isSome_iff]
  cases hk : v1.bind (fun s => utf8 s) with
  | none => simp [hres, hk]
  | some k =>
    cases hc : v2.bind (fun s => utf8 s) with
    | none => simp [hres, hk, hc]
    | some c =>
      refine ⟨by simp [hres, hk, hc], ?_, by simp [hres, hk, hc]⟩
      intro c0 hc0
      rw [hres, hk, hc] at hc0
      have : Certificate.new k c = c0 := by
        exact Option.some_injective _ (Except.ok.inj hc0)
      subst this
      exact ⟨rfl, rfl⟩

/-- C3 witness: over the sample store both halves are present and decode, so
a certificate value is returned. -/
theorem certificate_both_halves_witness :
    ∃ c, (Account.certificate sampleAccount sampleUtf8 "example.org").1
      = Except.ok (some c) := by
  exact (certificate_both_halves sampleAccount sampleUtf8 "example.org"
      (some [107]) (some [99]) rfl rfl).1.mpr
    ⟨⟨[107], "K", rfl, rfl⟩, ⟨[99], "C", rfl, rfl⟩⟩

/-- C7: a backend I/O failure on either persistence lookup inside
`Account::certificate` propagates to the caller as an error result, which
is distinct from the `none` result returned for mere absence. -/
theorem certificate_backend_error_propagates (acc : Account)
    (utf8 : Bytes → Option String) (p : String) (e : PersistError) :
    (acc.inner.directory.persist
        (PersistKey.new acc.inner.contact_email PersistKind.PrivateKey p)
          = Except.error e →
      (Account.certificate acc utf8 p).1 = Except.error e) ∧
    (∀ v1, acc.inner.directory.persist
        (PersistKey.new acc.inner.contact_email PersistKind.PrivateKey p)
          = Except.ok v1 →
      acc.inner.directory.persist
        (PersistKey.new acc.inner.contact_email PersistKind.Certificate p)
          = Except.error e →
      (Account.certificate acc utf8 p).1 = Except.error e) ∧
    (∀ r : Option Certificate,
      (Except.error e : Except PersistError (Option Certificate))
        ≠ Except.ok r) := by
  refine ⟨?_, ?_, ?_⟩
  · intro h1
    simp [Account.certificate, h1]
  · intro v1 h1 h2
    simp [Account.certificate, h1, h2]
  · intro r h
    exact Except.noConfusion h

/-- C7 witness: over the failing store the error surfaces. -/
theorem certificate_backend_error_propagates_witness :
    (Account.certificate failAccount sampleUtf8 "example.org").1
      = Except.error (PersistError.backend "store down") := by
  exact (certificate_backend_error_propagates failAccount sampleUtf8
      "example.org" (PersistError.backend "store down")).1 rfl

/-- C10: `Account::certificate` performs its lookups in a fixed order — the
PrivateKey key first — and a backend failure of that first lookup returns
the error with only the PrivateKey key read: the Certificate lookup is
never performed.  When the first lookup does not fail, exactly the two
keys are read, PrivateKey before Certificate. -/
theorem certificate_reads_private_key_first (acc : Account)
    (utf8 : Bytes → Option String) (p : String) :
    ((Account.certificate acc utf8 p).2.head?
      = some (PersistKey.new acc.inner.contact_email
          PersistKind.PrivateKey p)) ∧
    (∀ e, acc.inner.directory.persist
        (PersistKey.new acc.inner.contact_email PersistKind.PrivateKey p)
          = Except.error e →
      Account.certificate acc utf8 p
        = (Except.error e,
            [PersistKey.new acc.inner.contact_email
              PersistKind.PrivateKey p])) ∧
    (∀ v1, acc.inner.directory.persist
        (PersistKey.new acc.inner.contact_email PersistKind.PrivateKey p)
          = Except.ok v1 →
      (Account.certificate acc utf8 p).2
        = [PersistKey.new acc.inner.contact_email PersistKind.PrivateKey p,
            PersistKey.new acc.inner.contact_email
              PersistKind.Certificate p]) := by
  refine ⟨?_, ?_, ?_⟩
  · cases h1 : acc.inner.directory.persist
        (PersistKey.new acc.inner.contact_email PersistKind.PrivateKey p) with
    | error e => simp [Account.certificate, h1]
    | ok v1 =>
      cases h2 : acc.inner.directory.persist
          (PersistKey.new acc.inner.contact_email
            PersistKind.Certificate p) with
      | error e => simp [Account.certificate, h1, h2]
      | ok v2 => simp [Account.certificate, h1, h2]
  · intro e h1
    simp [Account.certificate, h1]
  · intro v1 h1
    cases h2 : acc.inner.directory.persist
        (PersistKey.new acc.inner.contact_email
          PersistKind.Certificate p) with
    | error e => simp [Account.certificate, h1, h2]
    | ok v2 => simp [Account.certificate, h1, h2]

/-- C10 witness: over the failing store only the PrivateKey key is read. -/
theorem certificate_reads_private_key_first_witness :
    Account.certificate failAccount sampleUtf8 "example.org"
      = (Except.error (PersistError.backend "store down"),
          [PersistKey.new "foo@bar.com" PersistKind.PrivateKey
            "example.org"]) := by
  exact (certificate_reads_private_key_first failAccount sampleUtf8
      "example.org").2.1 (PersistError.backend "store down") rfl

/-- C9: whenever the account key's PEM serialization decodes as text,
`Account::acme_private_key_pem` returns that text; when it does not, the
function panics (`.expect("from_utf8")`) rather than returning an error
result, so it is total only under the decodability precondition. -/
theorem acme_private_key_pem_total_under_utf8 (acc : Account)
    (utf8 : Bytes → Option String) :
    (∀ s, utf8 acc.inner.acme_key.to_pem = some s →
      Account.acme_private_key_pem acc utf8 = PanicOr.ok s) ∧
    (utf8 acc.inner.acme_key.to_pem = none →
      Account.acme_private_key_pem acc utf8
        = PanicOr.panicked "from_utf8") := by
  constructor
  · intro s hs
    simp [Account.acme_private_key_pem, hs]
  · intro hn
    simp [Account.acme_private_key_pem, hn]

/-- C9 witness: the sample key's PEM bytes decode, and the decoded text is
returned. -/
theorem acme_private_key_pem_total_under_utf8_witness :
    Account.acme_private_key_pem sampleAccount sampleUtf8
      = PanicOr.ok "K" := by
  exact (acme_private_key_pem_total_under_utf8 sampleAccount
      sampleUtf8).1 "K" rfl

/-- C1: in the executor invoked by `Account::new_order`, a stale-token
rejection discards the response and restarts the attempt with a freshly
obtained token, bounded by the fixed retry budget; when every attempt
within the budget is rejected as stale the last such failure is surfaced;
and any other non-success outcome is surfaced immediately, with no
retry. -/
theorem retry_call_bounded_stale_retry (attempt : Nat → AttemptOutcome) :
    (∀ e, attempt 0 = AttemptOutcome.failure e →
      retry_call attempt = (Except.error e, [0])) ∧
    (∀ r j, j ≤ nonceRetries →
      (∀ k, k < j → ∃ e, attempt k = AttemptOutcome.staleToken e) →
      attempt j = AttemptOutcome.success r →
      retry_call attempt = (Except.ok r, List.range (j + 1))) ∧
    (∀ f : Nat → AcmeError,
      (∀ j, j ≤ nonceRetries → attempt j = AttemptOutcome.staleToken (f j)) →
      retry_call attempt
        = (Except.error (f nonceRetries),
            List.range (nonceRetries + 1))) := by
  refine ⟨?_, ?_, ?_⟩
  · intro e h
    exact retryCallFrom_failure attempt e nonceRetries 0 h
  · intro r j hj hpre hs
    rw [List.range_eq_range']
    exact retryCallFrom_stale_then_success attempt r nonceRetries 0 j hj
      (fun k _ h2 => hpre k (by omega)) (by simpa using hs)
  · intro f h
    rw [List.range_eq_range']
    have hall := retryCallFrom_all_stale attempt f nonceRetries 0
      (fun j _ h2 => h j (by omega))
    simpa using hall

/-- C1 witness: a stale-token rejection on the first attempt followed by a
success on the second yields the success response after two attempts on
two distinct fresh tokens. -/
theorem retry_call_bounded_stale_retry_witness :
    retry_call (fun n =>
        if n = 0 then AttemptOutcome.staleToken (AcmeError.badNonce "stale")
        else AttemptOutcome.success (Response.mk [("location", "u")] "b"))
      = (Except.ok (Response.mk [("location", "u")] "b"), [0, 1]) := by
  have h := (retry_call_bounded_stale_retry (fun n =>
      if n = 0 then AttemptOutcome.staleToken (AcmeError.badNonce "stale")
      else AttemptOutcome.success (Response.mk [("location", "u")] "b"))).2.1
    (Response.mk [("location", "u")] "b") 1 (by decide)
    (fun k hk => ⟨AcmeError.badNonce "stale", by
      have hk0 : k = 0 := by omega
      subst hk0
      rfl⟩)
    rfl
  rw [show List.range 2 = [0, 1] from rfl] at h
  exact h

/-- C2: within one `new_order` call every attempt consumes exactly one
fresh token: the consumed-token trace is the run of consecutive issue
indices starting at `0` (attempt `k` consumes token `k`), hence it has no
duplicates — a token obtained for one attempt is never reused by a later
attempt — and at least one token is consumed. -/
theorem new_order_fresh_token_per_attempt (acc : Account)
    (provider : Jws → AttemptOutcome) (parse : String → Option ApiOrder)
    (primary_name : String) (alt_names : List String) :
    ((Account.new_order acc provider parse primary_name alt_names).2
      = List.range
          (Account.new_order acc provider parse
            primary_name alt_names).2.length) ∧
    (Account.new_order acc provider parse primary_name alt_names).2.Nodup ∧
    1 ≤ (Account.new_order acc provider parse
          primary_name alt_names).2.length := by
  have ht := new_order_trace_eq acc provider parse primary_name alt_names
  have hr := retryCallFrom_trace_range' (fun nonce =>
      provider (acc.newOrderEnvelope primary_name alt_names nonce))
    nonceRetries 0
  have hp := retryCallFrom_trace_pos (fun nonce =>
      provider (acc.newOrderEnvelope primary_name alt_names nonce))
    nonceRetries 0
  refine ⟨?_, ?_, ?_⟩
  · rw [ht, List.range_eq_range']
    exact hr
  · rw [ht]
    show (retryCallFrom (fun nonce =>
        provider (acc.newOrderEnvelope primary_name alt_names nonce))
      nonceRetries 0).2.Nodup
    rw [hr]
    exact List.nodup_range' _ _
  · rw [ht]
    exact hp

/-- C4: the identifier sequence `Account::new_order` submits to the
provider has the primary name first, followed by the alternate names in
exactly the order supplied (duplicates kept), and every element is tagged
with type `"dns"`; this holds on the envelope of every attempt. -/
theorem new_order_identifier_sequence (acc : Account) (primary_name : String)
    (alt_names : List String) (nonce : Nat) :
    ((acc.newOrderEnvelope primary_name alt_names nonce).payload.identifiers
      = { _type := "dns", value := primary_name }
          :: alt_names.map (fun s => { _type := "dns", value := s })) ∧
    ((acc.newOrderEnvelope primary_name alt_names
        nonce).payload.identifiers.map (fun idt => idt.value)
      = primary_name :: alt_names) ∧
    (∀ idt ∈ (acc.newOrderEnvelope primary_name alt_names
        nonce).payload.identifiers, idt._type = "dns") := by
  refine ⟨?_, ?_, ?_⟩
  · simp [Account.newOrderEnvelope, make_jws_kid, orderPayload]
  · simp only [Account.newOrderEnvelope, make_jws_kid, orderPayload,
      List.map_cons, List.map_map, List.singleton_append, Function.comp]
    exact congrArg (fun l => primary_name :: l) (List.map_id alt_names)
  · intro idt hidt
    simp [Account.newOrderEnvelope, make_jws_kid, orderPayload] at hidt
    rcases hidt with rfl | ⟨s, _, rfl⟩ <;> rfl

/-- C4 witness: with primary name `"x"` and duplicate alternates
`["y", "y"]` the submitted sequence is exactly the three `"dns"`
identifiers in order. -/
theorem new_order_identifier_sequence_witness :
    (sampleAccount.newOrderEnvelope "x" ["y", "y"] 0).payload.identifiers
      = [{ _type := "dns", value := "x" }, { _type := "dns", value := "y" },
          { _type := "dns", value := "y" }] := by
  have h := new_order_identifier_sequence sampleAccount "x" ["y", "y"] 0
  simpa using h.1

/-- C5: when the executor returns a success response that lacks the
`location` resource-location header, `Account::new_order` returns a
protocol-violation error — never an order handle — and performs no
further attempt: its token trace is exactly the executor's. -/
theorem new_order_missing_location_error (acc : Account)
    (provider : Jws → AttemptOutcome) (parse : String → Option ApiOrder)
    (primary_name : String) (alt_names : List String) (res : Response)
    (hok : (retry_call (fun nonce =>
        provider (acc.newOrderEnvelope primary_name alt_names nonce))).1
      = Except.ok res)
    (hmiss : res.headers.lookup "location" = none) :
    ((Account.new_order acc provider parse primary_name alt_names).1
      = Except.error
          (AcmeError.protocolViolation "missing header location")) ∧
    ((Account.new_order acc provider parse primary_name alt_names).2
      = (retry_call (fun nonce =>
          provider (acc.newOrderEnvelope primary_name
            alt_names nonce))).2) := by
  have hh : expect_header res "location"
      = Except.error
          (AcmeError.protocolViolation "missing header location") := by
    simp [expect_header, hmiss]
  constructor
  · simp [Account.new_order, hok, hh]
  · exact new_order_trace_eq acc provider parse primary_name alt_names

/-- C5 witness: a success response with no headers at all yields the
protocol-violation error. -/
theorem new_order_missing_location_error_witness :
    (Account.new_order sampleAccount
        (fun _ => AttemptOutcome.success (Response.mk [] "b"))
        (fun _ => some ApiOrder.default) "example.org" []).1
      = Except.error
          (AcmeError.protocolViolation "missing header location") := by
  exact (new_order_missing_location_error sampleAccount
      (fun _ => AttemptOutcome.success (Response.mk [] "b"))
      (fun _ => some ApiOrder.default) "example.org" []
      (Response.mk [] "b") rfl rfl).1

/-- C6: `Account::new_order` has no request-level memoization: two
sequential calls with byte-identical arguments each perform the signed
request (each consumes its own token) and each returns the order resource
location assigned by the provider on that very call, so providers that
allocate distinct locations yield distinct order handles. -/
theorem new_order_no_memoization (acc : Account)
    (parse : String → Option ApiOrder) (primary_name : String)
    (alt_names : List String) (res1 res2 : Response) (u1 u2 : String)
    (o1 o2 : ApiOrder)
    (h1loc : res1.headers.lookup "location" = some u1)
    (h2loc : res2.headers.lookup "location" = some u2)
    (h1parse : parse res1.body = some o1)
    (h2parse : parse res2.body = some o2)
    (hne : u1 ≠ u2) :
    ((Account.new_order acc (fun _ => AttemptOutcome.success res1) parse
        primary_name alt_names).1
      = Except.ok { order := OrderResource.new acc.inner o1 u1 }) ∧
    ((Account.new_order acc (fun _ => AttemptOutcome.success res2) parse
        primary_name alt_names).1
      = Except.ok { order := OrderResource.new acc.inner o2 u2 }) ∧
    ((OrderResource.new acc.inner o1 u1).url
      ≠ (OrderResource.new acc.inner o2 u2).url) ∧
    ((Account.new_order acc (fun _ => AttemptOutcome.success res1) parse
        primary_name alt_names).2 = [0]) ∧
    ((Account.new_order acc (fun _ => AttemptOutcome.success res2) parse
        primary_name alt_names).2 = [0]) := by
  have hrc1 : retry_call (fun _ : Nat => AttemptOutcome.success res1)
      = (Except.ok res1, [0]) := rfl
  have hrc2 : retry_call (fun _ : Nat => AttemptOutcome.success res2)
      = (Except.ok res2, [0]) := rfl
  have hh1 : expect_header res1 "location" = Except.ok u1 := by
    simp [expect_header, h1loc]
  have hh2 : expect_header res2 "location" = Except.ok u2 := by
    simp [expect_header, h2loc]
  have hj1 : read_json parse res1 = Except.ok o1 := by
    simp [read_json, h1parse]
  have hj2 : read_json parse res2 = Except.ok o2 := by
    simp [read_json, h2parse]
  refine ⟨?_, ?_, hne, ?_, ?_⟩ <;>
    simp [Account.new_order, hrc1, hrc2, hh1, hh2, hj1, hj2,
      OrderResource.new]

/-- C6 witness: two calls with identical arguments against providers that
assign locations `"u1"` and `"u2"` return orders at those distinct
locations. -/
theorem new_order_no_memoization_witness :
    ((Account.new_order sampleAccount
        (fun _ => AttemptOutcome.success
          (Response.mk [("location", "u1")] "b"))
        (fun _ => some ApiOrder.default) "example.org" []).1
      = Except.ok { order := OrderResource.new sampleAccount.inner ApiOrder.default "u1" }) ∧
    ((Account.new_order sampleAccount
        (fun _ => AttemptOutcome.success
          (Response.mk [("location", "u2")] "b"))
        (fun _ => some ApiOrder.default) "example.org" []).1
      = Except.ok { order := OrderResource.new sampleAccount.inner ApiOrder.default "u2" }) ∧
    ((OrderResource.new sampleAccount.inner ApiOrder.default "u1").url
      ≠ (OrderResource.new sampleAccount.inner ApiOrder.default "u2").url) := by
  have h := new_order_no_memoization sampleAccount
    (fun _ => some ApiOrder.default) "example.org" []
    (Response.mk [("location", "u1")] "b")
    (Response.mk [("location", "u2")] "b")
    "u1" "u2" ApiOrder.default ApiOrder.default rfl rfl rfl rfl (by decide)
  exact ⟨h.1, h.2.1, h.2.2.1⟩

/-- C8: every `Account` field is fixed at construction — the accessors
return exactly the values the account was built from, the key identifier
of every submitted envelope is that of the constructed signing key, and
the constructed contact email is the namespace of every persistence key
`certificate` reads.  Every operation is a pure function of this immutable
value; none returns a modified account. -/
theorem account_immutable_fields (directory : Directory) (email : String)
    (key : AcmeKey) (apiAcc : ApiAccount) (utf8 : Bytes → Option String)
    (p : String) (alt_names : List String) (nonce : Nat) :
    ((Account.new directory email key apiAcc).contact_email = email) ∧
    ((Account.new directory email key apiAcc).api_account = apiAcc) ∧
    ((Account.new directory email key apiAcc).inner.acme_key = key) ∧
    ((Account.new directory email key apiAcc).inner.directory = directory) ∧
    (((Account.new directory email key apiAcc).newOrderEnvelope p alt_names
        nonce).kid = key.key_id) ∧
    (∀ k0 ∈ ((Account.new directory email key apiAcc).certificate
        utf8 p).2,
      k0.realm = (Account.new directory email key apiAcc).contact_email) := by
  refine ⟨rfl, rfl, rfl, rfl, rfl, ?_⟩
  exact certificate_trace_realm (Account.new directory email key apiAcc)
    utf8 p

/-- C8 witness: the sample account returns its construction email, and the
first key its certificate lookup reads carries that email as its
namespace. -/
theorem account_immutable_fields_witness :
    sampleAccount.contact_email = "foo@bar.com" ∧
    (PersistKey.new "foo@bar.com" PersistKind.PrivateKey
        "example.org").realm = "foo@bar.com" := by
  have h := account_immutable_fields sampleDirectory "foo@bar.com" sampleKey
    sampleApiAccount sampleUtf8 "example.org" [] 0
  refine ⟨h.1, ?_⟩
  exact h.2.2.2.2.2
    (PersistKey.new "foo@bar.com" PersistKind.PrivateKey "example.org")
    (List.mem_cons_self _ _)

end AcmeLib
